import Mathlib

set_option maxRecDepth 10000

/-!
Shallow embedding of the `ugent-library/bind` Go package (HTTP request data
binding) and proofs about it.

The embedding covers:
- the `vacuum` cleaning pass over `url.Values` (string-keyed multi-valued maps),
- models of the `strconv` scalar parsers used by the path-binding code
  (`ParseInt`, `ParseUint`, `ParseBool`, `ParseFloat`),
- the reflection-based path binding: the flat field loop of `bind.go`
  (`Path` / `setWithProperType`) and the recursive variant
  (`Path` / `setPath` / `setField`) that descends into embedded/anonymous
  structs and pointer fields,
- the dispatching entry points `Request`, `Query`, `Header`, `Body` with the
  process-wide configuration (form decoders, `PathValueFunc`) threaded
  explicitly as state.

External dependencies (the go-playground/form decoders, the JSON/XML decoders
of the standard library, and `net/http` form parsing) are taken as parameters:
the theorems quantify over their behaviour.
-/

namespace Bind

/-- Go `unicode.IsSpace` on a character: '\t', '\n', '\v', '\f', '\r', ' ',
U+0085, U+00A0 and the Unicode White_Space code points. -/
def goIsSpace (c : Char) : Bool :=
  c = ' ' ∨ c = '\t' ∨ c = '\n' ∨ c.toNat = 11 ∨ c.toNat = 12 ∨ c = '\r' ∨
  c.toNat = 0x85 ∨ c.toNat = 0xA0 ∨ c.toNat = 0x1680 ∨
  (0x2000 ≤ c.toNat ∧ c.toNat ≤ 0x200A) ∨ c.toNat = 0x2028 ∨ c.toNat = 0x2029 ∨
  c.toNat = 0x202F ∨ c.toNat = 0x205F ∨ c.toNat = 0x3000

/-- Go `strings.TrimSpace` on the character list: drop leading and trailing
white space. -/
def trimChars (l : List Char) : List Char :=
  ((l.dropWhile goIsSpace).reverse.dropWhile goIsSpace).reverse

/-- Go `strings.TrimSpace`. -/
def trimSpace (s : String) : String :=
  ⟨trimChars s.data⟩

/-- `url.Values`: a string-keyed multi-valued map, modelled as an association
list (Go map iteration order is abstracted away by keeping entry order). -/
abbrev Values : Type := List (String × List String)

/-- `http.Header.Get`: first value stored under a key, or "". -/
def headerGet (h : Values) (k : String) : String :=
  match h.lookup k with
  | some (v :: _) => v
  | _ => ""

/-- The inner loop of `vacuum`: trim each value, keep the non-empty ones. -/
def vacuumVals (vals : List String) : List String :=
  vals.filterMap fun v =>
    let t := trimSpace v
    if t = "" then none else some t

/-- `vacuum` from bind.go: trim every value, drop empty values, drop keys whose
value list becomes empty. -/
def vacuum (values : Values) : Values :=
  values.filterMap fun kv =>
    let newVals := vacuumVals kv.2
    if newVals = [] then none else some (kv.1, newVals)

/-- The `Flag` type of bind.go; `Vacuum` is its only value. -/
inductive Flag where
  | vacuum
deriving DecidableEq

/-- `hasFlag` from bind.go. -/
def hasFlag (flags : List Flag) (flag : Flag) : Bool :=
  flags.any (· = flag)

/-- Error classification of `strconv`: `ErrSyntax` or `ErrRange`. -/
inductive NumErr where
  | syntax0
  | range0
deriving DecidableEq

/-- Decimal digit value of a character, if it is one. -/
def decDigit? (c : Char) : Option Nat :=
  if '0' ≤ c ∧ c ≤ '9' then some (c.toNat - '0'.toNat) else none

/-- Value of a non-empty string of decimal digits; `none` when empty or when a
non-digit occurs (base 10, so Go admits no underscores here). -/
def digitsVal? (l : List Char) : Option Nat :=
  if l.isEmpty then none
  else l.foldl (fun acc c =>
    match acc, decDigit? c with
    | some a, some d => some (a * 10 + d)
    | _, _ => none) (some 0)

/-- Model of `strconv.ParseUint(s, 10, bitSize)`: decimal digits only (no
sign), range-checked against `2^bits`; `bitSize = 0` means the platform int
size, taken as 64. Only the classification and the success value are modelled
(Go additionally returns a clamped value together with a range error). -/
def goParseUint (s : String) (bitSize : Nat) : Except NumErr Nat :=
  let b := if bitSize = 0 then 64 else bitSize
  match digitsVal? s.data with
  | none => .error .syntax0
  | some n => if n < 2 ^ b then .ok n else .error .range0

/-- Model of `strconv.ParseInt(s, 10, bitSize)`: optional sign, decimal
digits, range `[-2^(b-1), 2^(b-1)-1]`; `bitSize = 0` means the platform int
size, taken as 64. -/
def goParseInt (s : String) (bitSize : Nat) : Except NumErr Int :=
  match s.data with
  | [] => .error .syntax0
  | c :: rest =>
    let neg := c = '-'
    let digits := if c = '-' ∨ c = '+' then rest else c :: rest
    match digitsVal? digits with
    | none => .error .syntax0
    | some un =>
      let b := if bitSize = 0 then 64 else bitSize
      let cutoff := 2 ^ (b - 1)
      if ¬neg ∧ un ≥ cutoff then .error .range0
      else if neg ∧ un > cutoff then .error .range0
      else .ok (if neg then -(un : Int) else (un : Int))

/-- Model of `strconv.ParseBool`. -/
def goParseBool (s : String) : Except NumErr Bool :=
  if s = "1" ∨ s = "t" ∨ s = "T" ∨ s = "true" ∨ s = "TRUE" ∨ s = "True" then
    .ok true
  else if s = "0" ∨ s = "f" ∨ s = "F" ∨ s = "false" ∨ s = "FALSE" ∨ s = "False" then
    .ok false
  else .error .syntax0

/-- Exact rationals used to model parsed float values, kept in lowest terms
with positive denominator so that equality is canonical; self-contained so
every operation reduces in the kernel. -/
structure Q where
  num : Int
  den : Nat
deriving DecidableEq

/-- Build a `Q` in lowest terms (the model never divides by zero). -/
def Q.mk' (n : Int) (d : Nat) : Q :=
  let g := n.natAbs.gcd d
  if g = 0 then ⟨0, 1⟩ else ⟨n / g, d / g⟩

/-- Multiplication on `Q`. -/
def Q.mul (a b : Q) : Q :=
  Q.mk' (a.num * b.num) (a.den * b.den)

/-- Negation on `Q`. -/
def Q.neg (a : Q) : Q :=
  ⟨-a.num, a.den⟩

/-- Strict order on `Q` (denominators are positive). -/
def Q.blt (a b : Q) : Bool :=
  a.num * (b.den : Int) < b.num * (a.den : Int)

/-- Abstract floating point value: the numeric content of a parsed float, with
IEEE rounding abstracted to the exact rational. -/
inductive FloatRep where
  | finite (q : Q)
  | inf (neg : Bool)
  | nan
deriving DecidableEq

/-- Largest finite value of a float of the given bit size, as an exact
rational (`bitSize = 32` selects float32, anything else float64, as in
`strconv.ParseFloat`). -/
def maxFloat (bitSize : Nat) : Q :=
  if bitSize = 32 then ⟨(((2 ^ 24 - 1) * 2 ^ 104 : Nat) : Int), 1⟩
  else ⟨(((2 ^ 53 - 1) * 2 ^ 971 : Nat) : Int), 1⟩

/-- Value of a string of decimal digits (assumed all digits). -/
def digitsNat (l : List Char) : Nat :=
  l.foldl (fun acc c => acc * 10 + (c.toNat - '0'.toNat)) 0

/-- Decimal mantissa of a float literal: integer digits, optional '.', fraction
digits, at least one digit in total; returns its exact value and the rest of
the input. -/
def mantissa? (l : List Char) : Option (Q × List Char) :=
  let ip := l.takeWhile Char.isDigit
  let rest := l.dropWhile Char.isDigit
  match rest with
  | '.' :: rest2 =>
    let fp := rest2.takeWhile Char.isDigit
    let rest3 := rest2.dropWhile Char.isDigit
    if ip.isEmpty ∧ fp.isEmpty then none
    else some (Q.mk' (digitsNat (ip ++ fp)) (10 ^ fp.length), rest3)
  | _ => if ip.isEmpty then none else some (Q.mk' (digitsNat ip) 1, rest)

/-- Ten to an integer power, as a rational. -/
def qpow10 (e : Int) : Q :=
  if 0 ≤ e then ⟨((10 ^ e.toNat : Nat) : Int), 1⟩ else ⟨1, 10 ^ (-e).toNat⟩

/-- Optional exponent of a float literal; the whole rest of the input must be
consumed. -/
def expPart? : List Char → Option Int
  | [] => some 0
  | c :: rest =>
    if c = 'e' ∨ c = 'E' then
      match rest with
      | '+' :: ds => (digitsVal? ds).map (Int.ofNat)
      | '-' :: ds => (digitsVal? ds).map (fun n => -(n : Int))
      | ds => (digitsVal? ds).map (Int.ofNat)
    else none

/-- Model of `strconv.ParseFloat(s, bitSize)` on decimal literals and the
special forms inf/infinity (signed, case-insensitive) and nan. IEEE rounding
is abstracted: the exact rational value is kept and the overflow threshold is
the largest finite value; hex-float syntax, underscores and the
underflow-range case are not modelled (no claim depends on them). -/
def goParseFloat (s : String) (bitSize : Nat) : Except NumErr FloatRep :=
  let l := s.data
  let signed : Bool := match l with
    | '+' :: _ => true
    | '-' :: _ => true
    | _ => false
  let neg : Bool := match l with
    | '-' :: _ => true
    | _ => false
  let l' := if signed then l.tail else l
  let low := l'.map Char.toLower
  if low = ['i', 'n', 'f'] ∨ low = ['i', 'n', 'f', 'i', 'n', 'i', 't', 'y'] then
    .ok (.inf neg)
  else if signed = false ∧ low = ['n', 'a', 'n'] then
    .ok .nan
  else
    match mantissa? l' with
    | none => .error .syntax0
    | some (m, rest) =>
      match expPart? rest with
      | none => .error .syntax0
      | some e =>
        let q := Q.mul (if neg then Q.neg m else m) (qpow10 e)
        if Q.blt (maxFloat bitSize) q ∨ Q.blt q (Q.neg (maxFloat bitSize)) then
          .error .range0
        else .ok (.finite q)

/-- `reflect.Kind`, restricted to the kinds the binding code distinguishes:
the scalar kinds (with their bit size), `Ptr`, `Struct`, `Invalid` (the kind of
the zero `reflect.Value`, e.g. `Elem()` of a nil pointer), and `other` for
every remaining kind (slice, map, chan, ...). -/
inductive Kind where
  | int (bits : Nat)
  | uint (bits : Nat)
  | bool
  | float (bits : Nat)
  | str
  | ptr
  | strct
  | other
  | invalid
deriving DecidableEq

/-- A Go value as the binding code sees it through reflection. A pointer
carries the zero value of its element type (what `reflect.New` on the element
type yields) next to its optional pointee; a struct carries its fields, each a
triple of the `Anonymous` flag, the `path` tag, and the field value. -/
inductive Value where
  | vInt (bits : Nat) (n : Int)
  | vUint (bits : Nat) (n : Nat)
  | vBool (b : Bool)
  | vFloat (bits : Nat) (x : FloatRep)
  | vStr (s : String)
  | vPtr (elemZero : Value) (pointee : Option Value)
  | vStruct (fields : List (Bool × String × Value))
  | vOther
  | vInvalid

/-- A struct field: `Anonymous` flag, `path` tag, value. -/
abbrev Field : Type := Bool × String × Value

/-- `reflect.Value.Kind` on the model. -/
def Value.kind : Value → Kind
  | .vInt bits _ => .int bits
  | .vUint bits _ => .uint bits
  | .vBool _ => .bool
  | .vFloat bits _ => .float bits
  | .vStr _ => .str
  | .vPtr _ _ => .ptr
  | .vStruct _ => .strct
  | .vOther => .other
  | .vInvalid => .invalid

/-- Binding errors: `form.InvalidDecoderError` (carrying the destination's
type name), the "unknown type" error of the field setters, a `strconv.NumError`
(function name, input, cause), the "PathValueFunc not set" error of the
recursive version, and errors coming out of the external decoders. -/
inductive BindError where
  | invalidDecoder (typeName : String)
  | unknownType
  | numError (fn : String) (num : String) (err : NumErr)
  | pathValueFuncNotSet
  | external (msg : String)
deriving DecidableEq

/-- `setIntField` from bind.go: empty input becomes "0"; the field is set only
on success, so the parsed value (or the error) is returned. -/
def setIntField (value : String) (bitSize : Nat) : Except BindError Int :=
  let value := if value = "" then "0" else value
  match goParseInt value bitSize with
  | .ok n => .ok n
  | .error e => .error (.numError "ParseInt" value e)

/-- `setUintField` from bind.go: empty input becomes "0". -/
def setUintField (value : String) (bitSize : Nat) : Except BindError Nat :=
  let value := if value = "" then "0" else value
  match goParseUint value bitSize with
  | .ok n => .ok n
  | .error e => .error (.numError "ParseUint" value e)

/-- `setBoolField` from bind.go: empty input becomes "false". -/
def setBoolField (value : String) : Except BindError Bool :=
  let value := if value = "" then "false" else value
  match goParseBool value with
  | .ok b => .ok b
  | .error e => .error (.numError "ParseBool" value e)

/-- `setFloatField` from bind.go: empty input becomes "0.0". -/
def setFloatField (value : String) (bitSize : Nat) : Except BindError FloatRep :=
  let value := if value = "" then "0.0" else value
  match goParseFloat value bitSize with
  | .ok x => .ok x
  | .error e => .error (.numError "ParseFloat" value e)

/-- `setWithProperType` from bind.go (the flat version): dispatch on the field
kind; on the `Ptr` kind it recurses on `Elem()` — for a nil pointer `Elem()`
is the invalid `reflect.Value`, whose `Invalid` kind falls to the default
"unknown type" branch. On error the field is left unchanged (the caller keeps
the old value); on success the new field value is returned. -/
def setWithProperType (valueKind : Kind) (val : String) (structField : Value) :
    Except BindError Value :=
  match valueKind with
  | .ptr =>
    match structField with
    | .vPtr elemZero (some e) =>
      (setWithProperType e.kind val e).map fun e' => .vPtr elemZero (some e')
    | _ =>
      -- nil pointer: Elem() has kind Invalid, so the recursive call returns
      -- the default "unknown type" error (inlined here); a non-pointer value
      -- under the Ptr kind cannot arise for kind-consistent values
      .error .unknownType
  | .int bits => (setIntField val bits).map fun n => .vInt bits n
  | .uint bits => (setUintField val bits).map fun n => .vUint bits n
  | .bool => (setBoolField val).map fun b => .vBool b
  | .float bits => (setFloatField val bits).map fun x => .vFloat bits x
  | .str => .ok (.vStr val)
  | _ => .error .unknownType
termination_by structural structField

/-- The field loop of `Path` in bind.go: fields with a non-empty, non-"-"
`path` tag are set from `PathValueFunc`; the first error stops the loop,
leaving that field and all later fields unchanged. Returns the updated fields
and the error, mirroring in-place mutation plus returned error. -/
def bindFieldsFlat (pv : String → String) : List Field → List Field × Option BindError
  | [] => ([], none)
  | (anon, pathParam, v) :: rest =>
    if pathParam ≠ "" ∧ pathParam ≠ "-" then
      match setWithProperType v.kind (pv pathParam) v with
      | .ok v' =>
        let (rest', e) := bindFieldsFlat pv rest
        ((anon, pathParam, v') :: rest', e)
      | .error err => ((anon, pathParam, v) :: rest, some err)
    else
      let (rest', e) := bindFieldsFlat pv rest
      ((anon, pathParam, v) :: rest', e)

/-- The destination argument `v any` of the binding functions, as reflection
classifies it: a non-pointer value, a nil pointer, or a non-nil pointer to a
value; the type name feeds `InvalidDecoderError`. -/
inductive Dest where
  | nonPtr (typeName : String)
  | nilPtr (typeName : String)
  | ptrTo (typeName : String) (v : Value)

/-- The type name of a destination (`reflect.TypeOf(v)`). -/
def Dest.typeName : Dest → String
  | .nonPtr t => t
  | .nilPtr t => t
  | .ptrTo t _ => t

/-- A request, with the parts the binding code reads. `form` stands for
`r.Form` after `r.ParseForm()` (owned by net/http, taken as given). -/
structure HttpRequest where
  method : String
  queryVals : Values
  headerVals : Values
  contentLength : Int
  body : String
  form : Values

/-- The behaviour of one of the go-playground/form decoders: values in,
current destination in, updated destination and optional error out. -/
abbrev DecodeFn : Type := Values → Dest → Dest × Option BindError

/-- The behaviour of a body decoder (JSON or XML) on the raw body. -/
abbrev BodyDecodeFn : Type := String → Dest → Dest × Option BindError

/-- The process-wide configuration of the package: the three form decoders and
the pluggable `PathValueFunc`, set once at startup. Threaded explicitly
through every operation as state so that (non-)mutation is visible. -/
structure Config where
  queryDecoder : DecodeFn
  formDecoder : DecodeFn
  headerDecoder : DecodeFn
  pathValueFunc : Option (HttpRequest → String → String)

/-- `Path` from bind.go (flat version): nothing happens when `PathValueFunc`
is unset; a non-pointer or nil-pointer destination is an
`InvalidDecoderError`; a pointer to a non-struct is ignored; otherwise the
flat field loop runs. -/
def Path (cfg : Config) (r : HttpRequest) (v : Dest) (_flags : List Flag) :
    Config × Dest × Option BindError :=
  match cfg.pathValueFunc with
  | none => (cfg, v, none)
  | some pvf =>
    match v with
    | .nonPtr t => (cfg, v, some (.invalidDecoder t))
    | .nilPtr t => (cfg, v, some (.invalidDecoder t))
    | .ptrTo t inner =>
      match inner with
      | .vStruct fields =>
        let (fields', e) := bindFieldsFlat (pvf r) fields
        (cfg, .ptrTo t (.vStruct fields'), e)
      | _ => (cfg, v, none)

/-- `Query` from bind.go: query values, vacuumed when the flag is set, fed to
the query decoder. -/
def Query (cfg : Config) (r : HttpRequest) (v : Dest) (flags : List Flag) :
    Config × Dest × Option BindError :=
  let vals := r.queryVals
  let vals := if hasFlag flags .vacuum then vacuum vals else vals
  let (v', e) := cfg.queryDecoder vals v
  (cfg, v', e)

/-- `Header` from bind.go: header values, vacuumed when the flag is set, fed
to the header decoder. -/
def Header (cfg : Config) (r : HttpRequest) (v : Dest) (flags : List Flag) :
    Config × Dest × Option BindError :=
  let vals := r.headerVals
  let vals := if hasFlag flags .vacuum then vacuum vals else vals
  let (v', e) := cfg.headerDecoder vals v
  (cfg, v', e)

/-- `Body` from bind.go: nothing on zero content length; dispatch on the
Content-Type prefix to the JSON, XML or form decoder; unknown content types
bind nothing and succeed. -/
def Body (jsonDec xmlDec : BodyDecodeFn) (cfg : Config) (r : HttpRequest)
    (v : Dest) (flags : List Flag) : Config × Dest × Option BindError :=
  if r.contentLength = 0 then (cfg, v, none)
  else
    let ct := headerGet r.headerVals "Content-Type"
    if ct.startsWith "application/json" then
      let (v', e) := jsonDec r.body v
      (cfg, v', e)
    else if ct.startsWith "application/xml" ∨ ct.startsWith "text/xml" then
      let (v', e) := xmlDec r.body v
      (cfg, v', e)
    else if ct.startsWith "application/x-www-form-urlencoded" ∨
        ct.startsWith "multipart/form-data" then
      let vals := r.form
      let vals := if hasFlag flags .vacuum then vacuum vals else vals
      let (v', e) := cfg.formDecoder vals v
      (cfg, v', e)
    else (cfg, v, none)

/-- `Request` from bind.go: `Path`, then `Header`, then `Query` for GET,
DELETE and HEAD and `Body` for every other method; the first error stops the
chain. -/
def Request (jsonDec xmlDec : BodyDecodeFn) (cfg : Config) (r : HttpRequest)
    (v : Dest) (flags : List Flag) : Config × Dest × Option BindError :=
  match Path cfg r v flags with
  | (cfg1, v1, some err) => (cfg1, v1, some err)
  | (cfg1, v1, none) =>
    match Header cfg1 r v1 flags with
    | (cfg2, v2, some err) => (cfg2, v2, some err)
    | (cfg2, v2, none) =>
      if r.method = "GET" ∨ r.method = "DELETE" ∨ r.method = "HEAD" then
        Query cfg2 r v2 flags
      else
        Body jsonDec xmlDec cfg2 r v2 flags
end Bind

namespace BindRec

open Bind

/-- `setField` from the later version: like `setWithProperType`, but a nil
pointer field is allocated (`reflect.New` on the element type gives the zero
value of the element type), bound into, and stored only on success. -/
def setField (kind : Kind) (strVal : String) (field : Value) :
    Except BindError Value :=
  match kind with
  | .ptr =>
    match field with
    | .vPtr elemZero none =>
      (setField elemZero.kind strVal elemZero).map fun z' =>
        .vPtr elemZero (some z')
    | .vPtr elemZero (some e) =>
      (setField e.kind strVal e).map fun e' => .vPtr elemZero (some e')
    | _ =>
      -- unreachable for kind-consistent values
      .error .unknownType
  | .int bits => (setIntField strVal bits).map fun n => .vInt bits n
  | .uint bits => (setUintField strVal bits).map fun n => .vUint bits n
  | .bool => (setBoolField strVal).map fun b => .vBool b
  | .float bits => (setFloatField strVal bits).map fun x => .vFloat bits x
  | .str => .ok (.vStr strVal)
  | _ => .error .unknownType
termination_by structural field

mutual

/-- `setPath` from the later version: dereference a pointer once (a nil
pointer binds nothing), then bind the fields when a struct remains (the
struct check after the dereference is inlined into the patterns; it appears
on its own as `setPathBody` below). -/
def setPath (pv : String → String) : Value → Value × Option BindError
  | .vPtr elemZero none => (.vPtr elemZero none, none)
  | .vPtr elemZero (some (.vStruct fields)) =>
    let r := bindFieldsRec pv fields
    (.vPtr elemZero (some (.vStruct r.1)), r.2)
  | .vPtr elemZero (some w) => (.vPtr elemZero (some w), none)
  | .vStruct fields =>
    let r := bindFieldsRec pv fields
    (.vStruct r.1, r.2)
  | w => (w, none)
termination_by structural v => v

/-- The field loop of the recursive `setPath`: an anonymous field is descended
into via `setPath` with its error discarded; a field with an active `path` tag
is set via `setField`, the first error stopping the loop with that field and
all later fields unchanged. -/
def bindFieldsRec (pv : String → String) :
    List Field → List Field × Option BindError
  | [] => ([], none)
  | (anon, pathParam, v) :: rest =>
    if anon then
      let (v', _) := setPath pv v
      let (rest', e) := bindFieldsRec pv rest
      ((anon, pathParam, v') :: rest', e)
    else if pathParam ≠ "" ∧ pathParam ≠ "-" then
      match setField v.kind (pv pathParam) v with
      | .ok v' =>
        let (rest', e) := bindFieldsRec pv rest
        ((anon, pathParam, v') :: rest', e)
      | .error err => ((anon, pathParam, v) :: rest, some err)
    else
      let (rest', e) := bindFieldsRec pv rest
      ((anon, pathParam, v) :: rest', e)
termination_by structural l => l

end

/-- The part of `setPath` after the pointer dereference: the struct check and
the field loop. -/
def setPathBody (pv : String → String) (val : Value) : Value × Option BindError :=
  match val with
  | .vStruct fields =>
    let (fields', e) := bindFieldsRec pv fields
    (.vStruct fields', e)
  | w => (w, none)

/-- `Path` from the later version: an unset `PathValueFunc` is now an error;
a non-pointer or nil-pointer destination is an `InvalidDecoderError`; the
non-nil pointer destination is handed to `setPath`, whose initial dereference
lands in `setPathBody` on the pointee. -/
def Path (cfg : Config) (r : HttpRequest) (v : Dest) (_flags : List Flag) :
    Config × Dest × Option BindError :=
  match cfg.pathValueFunc with
  | none => (cfg, v, some .pathValueFuncNotSet)
  | some pvf =>
    match v with
    | .nonPtr t => (cfg, v, some (.invalidDecoder t))
    | .nilPtr t => (cfg, v, some (.invalidDecoder t))
    | .ptrTo t inner =>
      let (inner', e) := setPathBody (pvf r) inner
      (cfg, .ptrTo t inner', e)

end BindRec

namespace Bind

/-- Sequencing of binding steps: run the second step only when the first
returned no error — the early-return chain of `Request`. -/
def stepThen (a b : Config → Dest → Config × Dest × Option BindError) :
    Config → Dest → Config × Dest × Option BindError := fun cfg v =>
  match a cfg v with
  | (cfg', v', none) => b cfg' v'
  | out => out

/-- The scalar kinds supported by the field setters: signed/unsigned integers,
bool, floats, string. -/
def scalarKind : Kind → Bool
  | .int _ => true
  | .uint _ => true
  | .bool => true
  | .float _ => true
  | .str => true
  | _ => false

/-- The classification used by claim C5 (rendered from its words): the field
kind is a supported scalar kind, or a pointer whose element kind (the kind of
the element type, read off its zero value) is one. -/
def claimScalarOrPtrToScalar (v : Value) : Bool :=
  scalarKind v.kind ||
    (match v with
     | .vPtr elemZero _ => scalarKind elemZero.kind
     | _ => false)

/-- The base of a value after following pointer indirection: through the
pointee when there is one, through the element type's zero value when the
pointer is nil. -/
def ptrBase : Value → Value
  | .vPtr elemZero none => ptrBase elemZero
  | .vPtr _ (some e) => ptrBase e
  | v => v

/-- A non-nil pointer-to-pointer-to-int value (pointing at 0), used to
separate claim C5's classification from the code's behaviour. -/
def ppInt : Value :=
  .vPtr (.vPtr (.vInt 0 0) none)
    (some (.vPtr (.vInt 0 0) (some (.vInt 0 0))))

/-- A decoder that binds nothing and reports no error (used as a concrete
instantiation in witnesses). -/
def decNoop : DecodeFn := fun _ d => (d, none)

/-- A body decoder that binds nothing and reports no error (used as a concrete
instantiation in witnesses). -/
def bodyDecNoop : BodyDecodeFn := fun _ d => (d, none)

/-- A concrete configuration with the no-op decoders and a `PathValueFunc`
returning "7" for the key "id" (used as a concrete instantiation in
witnesses). -/
def cfg0 : Config :=
  { queryDecoder := decNoop, formDecoder := decNoop, headerDecoder := decNoop,
    pathValueFunc := some fun _ k => if k = "id" then "7" else "" }

/-- A concrete GET request with no content (used as a concrete instantiation
in witnesses). -/
def r0 : HttpRequest :=
  { method := "GET", queryVals := [("q", [" x "])], headerVals := [],
    contentLength := 0, body := "", form := [] }

/-- The head of a `dropWhile` result fails the predicate. -/
lemma dropWhile_head_false (p : Char → Bool) :
    ∀ (l : List Char) (a : Char) (t : List Char),
      l.dropWhile p = a :: t → p a = false
  | [], a, t, h => by simp at h
  | c :: cs, a, t, h => by
    rw [List.dropWhile_cons] at h
    by_cases hc : p c = true
    · rw [if_pos hc] at h
      exact dropWhile_head_false p cs a t h
    · rw [if_neg hc] at h
      cases h
      simpa using hc

/-- Splitting a list at the start of its trailing run of `p`-characters. -/
lemma rev_split (p : Char → Bool) (A : List Char) :
    A = (A.reverse.dropWhile p).reverse ++ (A.reverse.takeWhile p).reverse := by
  conv_lhs =>
    rw [← List.reverse_reverse A, ← List.takeWhile_append_dropWhile p A.reverse]
  rw [List.reverse_append]

/-- `trimChars l` is `l.dropWhile goIsSpace` with a (white space) suffix cut
off. -/
lemma trimChars_prefix (l : List Char) :
    l.dropWhile goIsSpace =
      trimChars l ++ ((l.dropWhile goIsSpace).reverse.takeWhile goIsSpace).reverse :=
  rev_split goIsSpace (l.dropWhile goIsSpace)

/-- The first character of a trimmed string is not white space. -/
lemma trimChars_head (l : List Char) (a : Char) (t : List Char)
    (h : trimChars l = a :: t) : goIsSpace a = false := by
  have hp := trimChars_prefix l
  rw [h] at hp
  exact dropWhile_head_false goIsSpace l a _ hp

/-- The last character of a trimmed string is not white space. -/
lemma trimChars_revhead (l : List Char) (a : Char) (t : List Char)
    (h : (trimChars l).reverse = a :: t) : goIsSpace a = false := by
  unfold trimChars at h
  rw [List.reverse_reverse] at h
  exact dropWhile_head_false goIsSpace _ a t h

/-- A list whose first and last characters are not white space trims to
itself. -/
lemma trimChars_eq_self (l : List Char)
    (h1 : ∀ a t, l = a :: t → goIsSpace a = false)
    (h2 : ∀ a t, l.reverse = a :: t → goIsSpace a = false) :
    trimChars l = l := by
  have e1 : l.dropWhile goIsSpace = l := by
    cases l with
    | nil => rfl
    | cons a t =>
      rw [List.dropWhile_cons, if_neg]
      simp [h1 a t rfl]
  unfold trimChars
  rw [e1]
  rcases hr : l.reverse with _ | ⟨a, t⟩
  · simpa using congrArg List.reverse hr
  · rw [List.dropWhile_cons, if_neg]
    · rw [← hr, List.reverse_reverse]
    · simp [h2 a t hr]

/-- Trimming is idempotent on character lists. -/
lemma trimChars_idem (l : List Char) : trimChars (trimChars l) = trimChars l :=
  trimChars_eq_self _ (fun a t h => trimChars_head l a t h)
    (fun a t h => trimChars_revhead l a t h)

/-- `strings.TrimSpace` is idempotent. -/
lemma trimSpace_idem (s : String) : trimSpace (trimSpace s) = trimSpace s :=
  congrArg String.mk (trimChars_idem s.data)

/-- Unfolding `vacuumVals` over a cons. -/
lemma vacuumVals_cons (v : String) (vs : List String) :
    vacuumVals (v :: vs) =
      if trimSpace v = "" then vacuumVals vs else trimSpace v :: vacuumVals vs := by
  unfold vacuumVals
  rw [List.filterMap_cons]
  by_cases h : trimSpace v = ""
  · simp [h]
  · simp [h]

/-- The value-list cleaning of `vacuum` is idempotent. -/
lemma vacuumVals_idem (vs : List String) :
    vacuumVals (vacuumVals vs) = vacuumVals vs := by
  induction vs with
  | nil => rfl
  | cons v vs ih =>
    rw [vacuumVals_cons]
    by_cases h : trimSpace v = ""
    · rw [if_pos h]
      exact ih
    · rw [if_neg h, vacuumVals_cons, trimSpace_idem, if_neg h, ih]

/-- Unfolding `vacuum` over a cons. -/
lemma vacuum_cons (k : String) (vs : List String) (m : Values) :
    vacuum ((k, vs) :: m) =
      if vacuumVals vs = [] then vacuum m else (k, vacuumVals vs) :: vacuum m := by
  unfold vacuum
  rw [List.filterMap_cons]
  by_cases h : vacuumVals vs = [] <;> simp [h]


/-- C8: the vacuum cleaning pass is idempotent: vacuuming an already vacuumed
map changes nothing. (That `vacuum` does not mutate its input and builds a
fresh map is inherent in the translation: the Go code writes only into the
freshly allocated `newValues`.) -/
theorem c8_vacuum_idempotent (m : Values) : vacuum (vacuum m) = vacuum m := by
  induction m with
  | nil => rfl
  | cons kv m ih =>
    obtain ⟨k, vs⟩ := kv
    rw [vacuum_cons]
    by_cases h : vacuumVals vs = []
    · rw [if_pos h]
      exact ih
    · rw [if_neg h, vacuum_cons, vacuumVals_idem, if_neg h, ih]

/-- C2: every entry surviving `vacuum` is non-empty, consists exactly of the
whitespace-trimmed non-empty values of an original entry under the same key
(so no remaining value is empty and no key with an empty cleaned list
remains), and `Query` applies the cleaning before decoding exactly when the
`Vacuum` flag is passed. -/
theorem c2_vacuum_spec (m : Values) (k : String) (vs : List String)
    (h : (k, vs) ∈ vacuum m) :
    vs ≠ [] ∧
    (∃ ovs, (k, ovs) ∈ m ∧ vs = vacuumVals ovs ∧
      ∀ v ∈ vs, v ≠ "" ∧ ∃ ov ∈ ovs, v = trimSpace ov) ∧
    (∀ (cfg : Config) (r : HttpRequest) (d : Dest) (flags : List Flag),
      (hasFlag flags .vacuum = true →
        Query cfg r d flags = (cfg, cfg.queryDecoder (vacuum r.queryVals) d)) ∧
      (hasFlag flags .vacuum = false →
        Query cfg r d flags = (cfg, cfg.queryDecoder r.queryVals d))) := by
  obtain ⟨⟨k', ovs⟩, hm, hf⟩ := List.mem_filterMap.mp h
  by_cases hnv : vacuumVals ovs = []
  · simp [hnv] at hf
  · simp only [if_neg hnv, Option.some.injEq, Prod.mk.injEq] at hf
    obtain ⟨hk, hvs⟩ := hf
    subst hk
    refine ⟨by rw [hvs] at hnv; exact hnv, ⟨ovs, hm, hvs.symm, ?_⟩, ?_⟩
    · intro v hv
      rw [← hvs] at hv
      obtain ⟨ov, hov, hg⟩ := List.mem_filterMap.mp hv
      by_cases ht : trimSpace ov = ""
      · simp [ht] at hg
      · rw [if_neg ht] at hg
        rw [Option.some.injEq] at hg
        exact ⟨by rw [← hg]; exact ht, ov, hov, hg.symm⟩
    · intro cfg r d flags
      constructor <;> intro hfl <;> simp [Query, hfl]




/-- `Path` never changes the configuration. -/
lemma Path_fst (cfg : Config) (r : HttpRequest) (d : Dest) (flags : List Flag) :
    (Path cfg r d flags).1 = cfg := by
  simp only [Path]
  repeat' split
  all_goals rfl

lemma PathRec_fst (cfg : Config) (r : HttpRequest) (d : Dest) (flags : List Flag) :
    (BindRec.Path cfg r d flags).1 = cfg := by
  simp only [BindRec.Path]
  repeat' split
  all_goals rfl

lemma Query_fst (cfg : Config) (r : HttpRequest) (d : Dest) (flags : List Flag) :
    (Query cfg r d flags).1 = cfg := by
  simp only [Query]

lemma Header_fst (cfg : Config) (r : HttpRequest) (d : Dest) (flags : List Flag) :
    (Header cfg r d flags).1 = cfg := by
  simp only [Header]

lemma Body_fst (jsonDec xmlDec : BodyDecodeFn) (cfg : Config) (r : HttpRequest)
    (d : Dest) (flags : List Flag) :
    (Body jsonDec xmlDec cfg r d flags).1 = cfg := by
  simp only [Body]
  repeat' split
  all_goals rfl

lemma Request_fst (jsonDec xmlDec : BodyDecodeFn) (cfg : Config)
    (r : HttpRequest) (d : Dest) (flags : List Flag) :
    (Request jsonDec xmlDec cfg r d flags).1 = cfg := by
  unfold Request
  split
  next c1 d1 err heq =>
    have h := Path_fst cfg r d flags
    rw [heq] at h
    exact h
  next c1 d1 heq =>
    have h1 := Path_fst cfg r d flags
    rw [heq] at h1
    dsimp at h1
    rw [h1]
    split
    next c2 d2 err2 heq2 =>
      have h2 := Header_fst cfg r d1 flags
      rw [heq2] at h2
      exact h2
    next c2 d2 heq2 =>
      have h2 := Header_fst cfg r d1 flags
      rw [heq2] at h2
      dsimp at h2
      rw [h2]
      split
      · exact Query_fst cfg r d2 flags
      · exact Body_fst jsonDec xmlDec cfg r d2 flags


/-- C7: no binding operation modifies the process-wide configuration (the
three form decoders and `PathValueFunc`): each of `Request`, `Path` (both
versions), `Header`, `Query` and `Body` returns the configuration it was
given, unchanged. -/
theorem c7_config_read_only (jsonDec xmlDec : BodyDecodeFn) (cfg : Config)
    (r : HttpRequest) (d : Dest) (flags : List Flag) :
    (Request jsonDec xmlDec cfg r d flags).1 = cfg ∧
    (Path cfg r d flags).1 = cfg ∧
    (BindRec.Path cfg r d flags).1 = cfg ∧
    (Header cfg r d flags).1 = cfg ∧
    (Query cfg r d flags).1 = cfg ∧
    (Body jsonDec xmlDec cfg r d flags).1 = cfg :=
  ⟨Request_fst jsonDec xmlDec cfg r d flags, Path_fst cfg r d flags,
   PathRec_fst cfg r d flags, Header_fst cfg r d flags,
   Query_fst cfg r d flags, Body_fst jsonDec xmlDec cfg r d flags⟩

/-- C4: with the path accessor configured, a destination that is not a pointer
or is a nil pointer makes `Path` (both versions) return an
`InvalidDecoderError` carrying the destination's type, with the destination
untouched. -/
theorem c4_invalid_destination (cfg : Config) (r : HttpRequest)
    (flags : List Flag) (pvf : HttpRequest → String → String) (t : String)
    (d : Dest) (hcfg : cfg.pathValueFunc = some pvf)
    (hd : d = .nonPtr t ∨ d = .nilPtr t) :
    Path cfg r d flags = (cfg, d, some (.invalidDecoder t)) ∧
    BindRec.Path cfg r d flags = (cfg, d, some (.invalidDecoder t)) := by
  rcases hd with rfl | rfl <;>
    exact ⟨by simp [Path, hcfg], by simp [BindRec.Path, hcfg]⟩

/-- Witness for C4 at a concrete configuration and destination. -/
theorem c4_invalid_destination_witness :
    cfg0.pathValueFunc = some (fun _ k => if k = "id" then "7" else "") ∧
    Path cfg0 r0 (.nonPtr "string") [] =
      (cfg0, .nonPtr "string", some (.invalidDecoder "string")) ∧
    BindRec.Path cfg0 r0 (.nonPtr "string") [] =
      (cfg0, .nonPtr "string", some (.invalidDecoder "string")) :=
  ⟨rfl,
   c4_invalid_destination cfg0 r0 [] _ "string" (.nonPtr "string") rfl (Or.inl rfl)⟩

/-- C9: `Body` with zero content length, or with a Content-Type matching none
of the known prefixes, reports no error and leaves the destination unchanged. -/
theorem c9_body_noop (jsonDec xmlDec : BodyDecodeFn) (cfg : Config)
    (r : HttpRequest) (d : Dest) (flags : List Flag)
    (h : r.contentLength = 0 ∨
      ((headerGet r.headerVals "Content-Type").startsWith "application/json" = false ∧
       (headerGet r.headerVals "Content-Type").startsWith "application/xml" = false ∧
       (headerGet r.headerVals "Content-Type").startsWith "text/xml" = false ∧
       (headerGet r.headerVals "Content-Type").startsWith "application/x-www-form-urlencoded" = false ∧
       (headerGet r.headerVals "Content-Type").startsWith "multipart/form-data" = false)) :
    Body jsonDec xmlDec cfg r d flags = (cfg, d, none) := by
  unfold Body
  by_cases h0 : r.contentLength = 0
  · rw [if_pos h0]
  · rcases h with h | ⟨h1, h2, h3, h4, h5⟩
    · exact absurd h h0
    · rw [if_neg h0, if_neg (by simp [h1]), if_neg (by simp [h2, h3]),
        if_neg (by simp [h4, h5])]

/-- Witness for C9: a request with zero content length, and one with an
unknown content type. -/
theorem c9_body_noop_witness :
    r0.contentLength = 0 ∧
    Body bodyDecNoop bodyDecNoop cfg0 r0 (.nonPtr "string") [] =
      (cfg0, .nonPtr "string", none) :=
  ⟨rfl, c9_body_noop bodyDecNoop bodyDecNoop cfg0 r0 (.nonPtr "string") []
    (Or.inl rfl)⟩

/-- Witness for C2 at a concrete map. -/
theorem c2_vacuum_spec_witness :
    ("k", ["x"]) ∈ vacuum [("k", [" x "])] ∧
    (["x"] ≠ [] ∧
      (∃ ovs, ("k", ovs) ∈ [("k", [" x "])] ∧ ["x"] = vacuumVals ovs ∧
        ∀ v ∈ ["x"], v ≠ "" ∧ ∃ ov ∈ ovs, v = trimSpace ov) ∧
      (∀ (cfg : Config) (r : HttpRequest) (d : Dest) (flags : List Flag),
        (hasFlag flags .vacuum = true →
          Query cfg r d flags = (cfg, cfg.queryDecoder (vacuum r.queryVals) d)) ∧
        (hasFlag flags .vacuum = false →
          Query cfg r d flags = (cfg, cfg.queryDecoder r.queryVals d)))) :=
  ⟨by decide, c2_vacuum_spec [("k", [" x "])] "k" ["x"] (by decide)⟩

/-- C1: `Request` is the early-return composition of the individual binding
functions: always `Path` then `Header`, then `Query` (header+query data) for
the read-only methods GET, DELETE and HEAD, and `Body` (header+body data) for
every other method. -/
theorem c1_request_dispatch (jsonDec xmlDec : BodyDecodeFn) (cfg : Config)
    (r : HttpRequest) (d : Dest) (flags : List Flag) :
    (r.method = "GET" ∨ r.method = "DELETE" ∨ r.method = "HEAD" →
      Request jsonDec xmlDec cfg r d flags =
        stepThen (fun c v => Path c r v flags)
          (stepThen (fun c v => Header c r v flags)
            (fun c v => Query c r v flags)) cfg d) ∧
    (¬(r.method = "GET" ∨ r.method = "DELETE" ∨ r.method = "HEAD") →
      Request jsonDec xmlDec cfg r d flags =
        stepThen (fun c v => Path c r v flags)
          (stepThen (fun c v => Header c r v flags)
            (fun c v => Body jsonDec xmlDec c r v flags)) cfg d) := by
  constructor <;> intro hm
  · unfold Request stepThen
    dsimp only
    rcases hP : Path cfg r d flags with ⟨c1, d1, e1⟩
    cases e1 with
    | some err => rfl
    | none =>
      dsimp only
      rcases hH : Header c1 r d1 flags with ⟨c2, d2, e2⟩
      cases e2 with
      | some err => rfl
      | none =>
        dsimp only
        rw [if_pos hm]
  · unfold Request stepThen
    dsimp only
    rcases hP : Path cfg r d flags with ⟨c1, d1, e1⟩
    cases e1 with
    | some err => rfl
    | none =>
      dsimp only
      rcases hH : Header c1 r d1 flags with ⟨c2, d2, e2⟩
      cases e2 with
      | some err => rfl
      | none =>
        dsimp only
        rw [if_neg hm]

/-- Witness for C1 at a concrete GET request. -/
theorem c1_request_dispatch_witness :
    (r0.method = "GET" ∨ r0.method = "DELETE" ∨ r0.method = "HEAD") ∧
    Request bodyDecNoop bodyDecNoop cfg0 r0 (.nonPtr "string") [] =
      stepThen (fun c v => Path c r0 v [])
        (stepThen (fun c v => Header c r0 v [])
          (fun c v => Query c r0 v [])) cfg0 (.nonPtr "string") :=
  ⟨Or.inl rfl,
   (c1_request_dispatch bodyDecNoop bodyDecNoop cfg0 r0 (.nonPtr "string") []).1
     (Or.inl rfl)⟩

/-- Unfolding the flat field loop over a field with an active path tag. -/
lemma bindFieldsFlat_cons_active (pv : String → String) (anon : Bool)
    (tag : String) (v : Value) (rest : List Field)
    (h1 : tag ≠ "") (h2 : tag ≠ "-") :
    bindFieldsFlat pv ((anon, tag, v) :: rest) =
      match setWithProperType v.kind (pv tag) v with
      | .ok v' =>
        ((anon, tag, v') :: (bindFieldsFlat pv rest).1, (bindFieldsFlat pv rest).2)
      | .error err => ((anon, tag, v) :: rest, some err) := by
  rw [bindFieldsFlat, if_pos ⟨h1, h2⟩]

/-- Unfolding the flat field loop over a field without an active path tag. -/
lemma bindFieldsFlat_cons_inactive (pv : String → String) (anon : Bool)
    (tag : String) (v : Value) (rest : List Field)
    (h : ¬(tag ≠ "" ∧ tag ≠ "-")) :
    bindFieldsFlat pv ((anon, tag, v) :: rest) =
      ((anon, tag, v) :: (bindFieldsFlat pv rest).1, (bindFieldsFlat pv rest).2) := by
  rw [bindFieldsFlat, if_neg h]

/-- Fields after a successfully bound group are processed independently. -/
lemma bindFieldsFlat_append (pv : String → String) (l1 l2 : List Field)
    (h : (bindFieldsFlat pv l1).2 = none) :
    bindFieldsFlat pv (l1 ++ l2) =
      ((bindFieldsFlat pv l1).1 ++ (bindFieldsFlat pv l2).1,
       (bindFieldsFlat pv l2).2) := by
  induction l1 with
  | nil => simp [bindFieldsFlat]
  | cons f l1 ih =>
    obtain ⟨anon, tag, v⟩ := f
    by_cases hact : tag ≠ "" ∧ tag ≠ "-"
    · rw [bindFieldsFlat_cons_active pv anon tag v l1 hact.1 hact.2] at h
      rw [List.cons_append,
        bindFieldsFlat_cons_active pv anon tag v (l1 ++ l2) hact.1 hact.2,
        bindFieldsFlat_cons_active pv anon tag v l1 hact.1 hact.2]
      cases hs : setWithProperType v.kind (pv tag) v with
      | ok v' =>
        rw [hs] at h
        replace h : (bindFieldsFlat pv l1).2 = none := h
        rw [ih h]
        simp
      | error err =>
        rw [hs] at h
        exact absurd h (by simp)
    · rw [bindFieldsFlat_cons_inactive pv anon tag v l1 hact] at h
      rw [List.cons_append,
        bindFieldsFlat_cons_inactive pv anon tag v (l1 ++ l2) hact,
        bindFieldsFlat_cons_inactive pv anon tag v l1 hact]
      replace h : (bindFieldsFlat pv l1).2 = none := h
      rw [ih h]
      simp


/-- C3: a path-tagged field of integer kind whose path-variable value is
non-empty and not parsable as a decimal integer of the field's bit size makes
`Path` return the scalar-conversion error (`strconv.NumError` from `ParseInt`)
immediately: the failing field and every later field are left unchanged. -/
theorem c3_int_parse_error_stops (cfg : Config) (r : HttpRequest)
    (flags : List Flag) (pvf : HttpRequest → String → String) (t : String)
    (pre post : List Field) (anon : Bool) (tag : String) (bits : Nat) (n : Int)
    (e : NumErr)
    (hcfg : cfg.pathValueFunc = some pvf)
    (hpre : (bindFieldsFlat (pvf r) pre).2 = none)
    (h1 : tag ≠ "") (h2 : tag ≠ "-")
    (hne : pvf r tag ≠ "")
    (herr : goParseInt (pvf r tag) bits = .error e) :
    Path cfg r (.ptrTo t (.vStruct (pre ++ (anon, tag, .vInt bits n) :: post)))
        flags =
      (cfg,
       .ptrTo t (.vStruct
         ((bindFieldsFlat (pvf r) pre).1 ++ (anon, tag, .vInt bits n) :: post)),
       some (.numError "ParseInt" (pvf r tag) e)) := by
  have hset : setWithProperType (Value.vInt bits n).kind (pvf r tag)
      (.vInt bits n) = .error (.numError "ParseInt" (pvf r tag) e) := by
    show (setIntField (pvf r tag) bits).map (fun m => Value.vInt bits m) = _
    unfold setIntField
    rw [if_neg hne]
    dsimp only
    rw [herr]
    rfl
  have hhead : bindFieldsFlat (pvf r) ((anon, tag, Value.vInt bits n) :: post) =
      ((anon, tag, Value.vInt bits n) :: post,
       some (.numError "ParseInt" (pvf r tag) e)) := by
    rw [bindFieldsFlat_cons_active (pvf r) anon tag _ post h1 h2, hset]
  simp only [Path, hcfg]
  rw [bindFieldsFlat_append (pvf r) pre _ hpre, hhead]

/-- Witness for C3: a one-field struct with an int field and the unparsable
path value "abc". -/
theorem c3_int_parse_error_stops_witness :
    goParseInt "abc" 0 = .error .syntax0 ∧
    Path { queryDecoder := decNoop, formDecoder := decNoop,
           headerDecoder := decNoop, pathValueFunc := some fun _ _ => "abc" }
        r0 (.ptrTo "T" (.vStruct [(false, "id", .vInt 0 0)])) [] =
      ({ queryDecoder := decNoop, formDecoder := decNoop,
         headerDecoder := decNoop, pathValueFunc := some fun _ _ => "abc" },
       .ptrTo "T" (.vStruct [(false, "id", .vInt 0 0)]),
       some (.numError "ParseInt" "abc" .syntax0)) :=
  ⟨rfl,
   c3_int_parse_error_stops _ r0 [] (fun _ _ => "abc") "T" [] [] false "id" 0 0
     .syntax0 rfl rfl (by decide) (by decide) (by decide) rfl⟩

/-- C10: a path-tagged field of integer, unsigned integer, bool or float kind
whose path-variable value is the empty string is bound to its zero value
(0, 0, false, 0.0) without a parse error; in particular the flat field loop
sets such an int field to 0 and continues. -/
theorem c10_empty_value_zero (bits : Nat)
    (hb : bits = 0 ∨ bits = 8 ∨ bits = 16 ∨ bits = 32 ∨ bits = 64) :
    setIntField "" bits = .ok 0 ∧
    setUintField "" bits = .ok 0 ∧
    setBoolField "" = .ok false ∧
    setFloatField "" bits = .ok (.finite ⟨0, 1⟩) ∧
    (∀ (pv : String → String) (anon : Bool) (tag : String) (n : Int)
       (rest : List Field),
      tag ≠ "" → tag ≠ "-" → pv tag = "" →
      bindFieldsFlat pv ((anon, tag, .vInt bits n) :: rest) =
        ((anon, tag, .vInt bits 0) :: (bindFieldsFlat pv rest).1,
         (bindFieldsFlat pv rest).2)) := by
  have base : setIntField "" bits = .ok 0 ∧ setUintField "" bits = .ok 0 ∧
      setBoolField "" = .ok false ∧ setFloatField "" bits = .ok (.finite ⟨0, 1⟩) := by
    rcases hb with rfl | rfl | rfl | rfl | rfl <;> exact ⟨rfl, rfl, rfl, rfl⟩
  refine ⟨base.1, base.2.1, base.2.2.1, base.2.2.2, ?_⟩
  intro pv anon tag n rest h1 h2 hpv
  rw [bindFieldsFlat_cons_active pv anon tag _ rest h1 h2]
  have hset : setWithProperType (Value.vInt bits n).kind (pv tag)
      (.vInt bits n) = .ok (.vInt bits 0) := by
    show (setIntField (pv tag) bits).map (fun m => Value.vInt bits m) = _
    rw [hpv, base.1]
    rfl
  rw [hset]

/-- Witness for C10 at bit size 64. -/
theorem c10_empty_value_zero_witness :
    ((64 : Nat) = 0 ∨ (64 : Nat) = 8 ∨ (64 : Nat) = 16 ∨ (64 : Nat) = 32 ∨
      (64 : Nat) = 64) ∧
    (setIntField "" 64 = .ok 0 ∧
     setUintField "" 64 = .ok 0 ∧
     setBoolField "" = .ok false ∧
     setFloatField "" 64 = .ok (.finite ⟨0, 1⟩) ∧
     (∀ (pv : String → String) (anon : Bool) (tag : String) (n : Int)
        (rest : List Field),
       tag ≠ "" → tag ≠ "-" → pv tag = "" →
       bindFieldsFlat pv ((anon, tag, .vInt 64 n) :: rest) =
         ((anon, tag, .vInt 64 0) :: (bindFieldsFlat pv rest).1,
          (bindFieldsFlat pv rest).2))) :=
  ⟨by decide, c10_empty_value_zero 64 (by decide)⟩



/-- Unfolding the recursive field loop over a non-anonymous field with an
active path tag. -/
lemma bindFieldsRec_cons_active (pv : String → String) (tag : String)
    (v : Value) (rest : List Field) (h1 : tag ≠ "") (h2 : tag ≠ "-") :
    BindRec.bindFieldsRec pv ((false, tag, v) :: rest) =
      match BindRec.setField v.kind (pv tag) v with
      | .ok v' =>
        ((false, tag, v') :: (BindRec.bindFieldsRec pv rest).1,
         (BindRec.bindFieldsRec pv rest).2)
      | .error err => ((false, tag, v) :: rest, some err) := by
  rw [BindRec.bindFieldsRec, if_neg (by simp), if_pos ⟨h1, h2⟩]

/-- Unfolding the recursive field loop over a non-anonymous field without an
active path tag. -/
lemma bindFieldsRec_cons_inactive (pv : String → String) (tag : String)
    (v : Value) (rest : List Field) (h : ¬(tag ≠ "" ∧ tag ≠ "-")) :
    BindRec.bindFieldsRec pv ((false, tag, v) :: rest) =
      ((false, tag, v) :: (BindRec.bindFieldsRec pv rest).1,
       (BindRec.bindFieldsRec pv rest).2) := by
  rw [BindRec.bindFieldsRec, if_neg (by simp), if_neg h]

/-- Unfolding the recursive field loop over an anonymous field: it is
descended into via `setPath`, its error discarded. -/
lemma bindFieldsRec_cons_anon (pv : String → String) (tag : String) (v : Value)
    (rest : List Field) :
    BindRec.bindFieldsRec pv ((true, tag, v) :: rest) =
      ((true, tag, (BindRec.setPath pv v).1) ::
         (BindRec.bindFieldsRec pv rest).1,
       (BindRec.bindFieldsRec pv rest).2) := by
  rw [BindRec.bindFieldsRec, if_pos rfl]

/-- `setPath` on a bare struct runs the recursive field loop. -/
lemma setPath_struct (pv : String → String) (fields : List Field) :
    BindRec.setPath pv (.vStruct fields) =
      (.vStruct (BindRec.bindFieldsRec pv fields).1,
       (BindRec.bindFieldsRec pv fields).2) := by
  rw [BindRec.setPath]

/-- On non-pointer kinds the two field setters are the same function. -/
lemma setWithProperType_eq_setField (v : Value) (s : String)
    (h : v.kind ≠ Kind.ptr) :
    setWithProperType v.kind s v = BindRec.setField v.kind s v := by
  cases v <;> first | rfl | exact absurd rfl h

/-- The flat and recursive field loops agree on flat structs: no anonymous
fields, no pointer-kind fields. -/
lemma bindFields_flat_eq_rec (pv : String → String) (fields : List Field)
    (h : ∀ f ∈ fields, f.1 = false ∧ f.2.2.kind ≠ Kind.ptr) :
    bindFieldsFlat pv fields = BindRec.bindFieldsRec pv fields := by
  induction fields with
  | nil => rfl
  | cons f rest ih =>
    obtain ⟨anon, tag, v⟩ := f
    obtain ⟨hanon, hkind⟩ := h _ (List.mem_cons_self _ _)
    replace hanon : anon = false := hanon
    replace hkind : v.kind ≠ Kind.ptr := hkind
    subst hanon
    have hrest : ∀ f ∈ rest, f.1 = false ∧ f.2.2.kind ≠ Kind.ptr :=
      fun f hf => h f (List.mem_cons_of_mem _ hf)
    by_cases hact : tag ≠ "" ∧ tag ≠ "-"
    · rw [bindFieldsFlat_cons_active pv false tag v rest hact.1 hact.2,
        bindFieldsRec_cons_active pv tag v rest hact.1 hact.2,
        setWithProperType_eq_setField v (pv tag) hkind, ih hrest]
    · rw [bindFieldsFlat_cons_inactive pv false tag v rest hact,
        bindFieldsRec_cons_inactive pv tag v rest hact, ih hrest]

/-- The flat setter returns "unknown type" whenever the pointer-chased base
of the field is not of a supported scalar kind. -/
lemma setWithProperType_unknown : ∀ (v : Value) (s : String),
    scalarKind (ptrBase v).kind = false →
    setWithProperType v.kind s v = .error .unknownType
  | .vInt _ _, _, h => by simp [ptrBase, scalarKind, Value.kind] at h
  | .vUint _ _, _, h => by simp [ptrBase, scalarKind, Value.kind] at h
  | .vBool _, _, h => by simp [ptrBase, scalarKind, Value.kind] at h
  | .vFloat _ _, _, h => by simp [ptrBase, scalarKind, Value.kind] at h
  | .vStr _, _, h => by simp [ptrBase, scalarKind, Value.kind] at h
  | .vPtr _ none, _, _ => rfl
  | .vPtr z (some e), s, h => by
    have ih := setWithProperType_unknown e s (by rw [ptrBase] at h; exact h)
    show (setWithProperType e.kind s e).map (fun w => Value.vPtr z (some w)) = _
    rw [ih]
    rfl
  | .vStruct _, _, _ => rfl
  | .vOther, _, _ => rfl
  | .vInvalid, _, _ => rfl

/-- The recursive setter returns "unknown type" whenever the pointer-chased
base of the field is not of a supported scalar kind. -/
lemma setField_unknown : ∀ (v : Value) (s : String),
    scalarKind (ptrBase v).kind = false →
    BindRec.setField v.kind s v = .error .unknownType
  | .vInt _ _, _, h => by simp [ptrBase, scalarKind, Value.kind] at h
  | .vUint _ _, _, h => by simp [ptrBase, scalarKind, Value.kind] at h
  | .vBool _, _, h => by simp [ptrBase, scalarKind, Value.kind] at h
  | .vFloat _ _, _, h => by simp [ptrBase, scalarKind, Value.kind] at h
  | .vStr _, _, h => by simp [ptrBase, scalarKind, Value.kind] at h
  | .vPtr z none, s, h => by
    have ih := setField_unknown z s (by rw [ptrBase] at h; exact h)
    show (BindRec.setField z.kind s z).map (fun w => Value.vPtr z (some w)) = _
    rw [ih]
    rfl
  | .vPtr z (some e), s, h => by
    have ih := setField_unknown e s (by rw [ptrBase] at h; exact h)
    show (BindRec.setField e.kind s e).map (fun w => Value.vPtr z (some w)) = _
    rw [ih]
    rfl
  | .vStruct _, _, _ => rfl
  | .vOther, _, _ => rfl
  | .vInvalid, _, _ => rfl

/-- C5 counterexample: a field of kind pointer-to-pointer-to-int — neither a
supported scalar kind nor a pointer to one — is bound successfully ("5" lands
in the pointee's pointee) by both setters, and `Path` reports no error,
instead of the "unknown type" error the claim requires for every such
field. -/
theorem c5_counterexample :
    claimScalarOrPtrToScalar ppInt = false ∧
    setWithProperType ppInt.kind "5" ppInt =
      .ok (.vPtr (.vPtr (.vInt 0 0) none)
        (some (.vPtr (.vInt 0 0) (some (.vInt 0 5))))) ∧
    BindRec.setField ppInt.kind "5" ppInt =
      .ok (.vPtr (.vPtr (.vInt 0 0) none)
        (some (.vPtr (.vInt 0 0) (some (.vInt 0 5))))) ∧
    (Path { queryDecoder := decNoop, formDecoder := decNoop,
            headerDecoder := decNoop, pathValueFunc := some fun _ _ => "5" } r0
        (.ptrTo "T" (.vStruct [(false, "id", ppInt)])) []).2.2 = none :=
  ⟨rfl, rfl, rfl, rfl⟩

/-- C5 (amended as the counterexample forces): a path-tagged field whose
kind, after following pointer indirection to its base, is not one of the
supported scalar kinds makes both field setters return the "unknown type"
error, and `Path` returns it to the caller. -/
theorem c5_unknown_type_error (v : Value) (s : String)
    (h : scalarKind (ptrBase v).kind = false) :
    setWithProperType v.kind s v = .error .unknownType ∧
    BindRec.setField v.kind s v = .error .unknownType ∧
    (∀ (cfg : Config) (r : HttpRequest) (flags : List Flag)
       (pvf : HttpRequest → String → String) (t tag : String) (anon : Bool)
       (rest : List Field),
      cfg.pathValueFunc = some pvf → tag ≠ "" → tag ≠ "-" →
      Path cfg r (.ptrTo t (.vStruct ((anon, tag, v) :: rest))) flags =
        (cfg, .ptrTo t (.vStruct ((anon, tag, v) :: rest)),
         some .unknownType)) := by
  refine ⟨setWithProperType_unknown v s h, setField_unknown v s h, ?_⟩
  intro cfg r flags pvf t tag anon rest hcfg h1 h2
  simp only [Path, hcfg]
  rw [bindFieldsFlat_cons_active (pvf r) anon tag v rest h1 h2,
    setWithProperType_unknown v (pvf r tag) h]

/-- Witness for the amended C5 at a struct-kind field. -/
theorem c5_unknown_type_error_witness :
    scalarKind (ptrBase (Value.vStruct [])).kind = false ∧
    setWithProperType (Value.vStruct []).kind "x" (.vStruct []) =
      .error .unknownType ∧
    BindRec.setField (Value.vStruct []).kind "x" (.vStruct []) =
      .error .unknownType ∧
    Path cfg0 r0 (.ptrTo "T" (.vStruct [(false, "id", .vStruct [])])) [] =
      (cfg0, .ptrTo "T" (.vStruct [(false, "id", .vStruct [])]),
       some .unknownType) :=
  ⟨rfl, (c5_unknown_type_error (Value.vStruct []) "x" rfl).1, (c5_unknown_type_error (Value.vStruct []) "x" rfl).2.1,
   (c5_unknown_type_error (Value.vStruct []) "x" rfl).2.2 cfg0 r0 [] _ "T" "id" false [] rfl
     (by decide) (by decide)⟩

/-- C6: on flat structs — no anonymous fields, no pointer-kind fields — the
flat field loop of bind.go and the recursive loop of the later version agree
exactly (same bound field values, same error); in addition the recursive loop
descends into an anonymous struct field, binding its tagged fields with the
same loop (discarding its error), and allocates a nil pointer field, binding
the parsed value through it. -/
theorem c6_flat_rec_refinement :
    (∀ (pv : String → String) (fields : List Field),
      (∀ f ∈ fields, f.1 = false ∧ f.2.2.kind ≠ Kind.ptr) →
      bindFieldsFlat pv fields = BindRec.bindFieldsRec pv fields) ∧
    (∀ (pv : String → String) (tag : String) (inner rest : List Field),
      BindRec.bindFieldsRec pv ((true, tag, .vStruct inner) :: rest) =
        ((true, tag, .vStruct (BindRec.bindFieldsRec pv inner).1) ::
           (BindRec.bindFieldsRec pv rest).1,
         (BindRec.bindFieldsRec pv rest).2)) ∧
    (∀ (s : String) (z z' : Value),
      BindRec.setField z.kind s z = .ok z' →
      BindRec.setField Kind.ptr s (.vPtr z none) = .ok (.vPtr z (some z'))) := by
  refine ⟨fun pv fields h => bindFields_flat_eq_rec pv fields h,
    fun pv tag inner rest => ?_, fun s z z' hz => ?_⟩
  · rw [bindFieldsRec_cons_anon pv tag _ rest, setPath_struct]
  · show (BindRec.setField z.kind s z).map (fun w => Value.vPtr z (some w)) = _
    rw [hz]
    rfl

/-- Witness for C6 at a one-int-field struct and a nil pointer-to-int
field. -/
theorem c6_flat_rec_refinement_witness :
    (∀ f ∈ [(false, "id", Value.vInt 0 0)],
      f.1 = false ∧ f.2.2.kind ≠ Kind.ptr) ∧
    bindFieldsFlat (fun _ => "7") [(false, "id", Value.vInt 0 0)] =
      BindRec.bindFieldsRec (fun _ => "7") [(false, "id", Value.vInt 0 0)] ∧
    BindRec.setField (Value.vInt 0 0).kind "7" (.vInt 0 0) = .ok (.vInt 0 7) ∧
    BindRec.setField Kind.ptr "7" (.vPtr (.vInt 0 0) none) =
      .ok (.vPtr (.vInt 0 0) (some (.vInt 0 7))) :=
  ⟨by decide,
   c6_flat_rec_refinement.1 (fun _ => "7") [(false, "id", Value.vInt 0 0)]
     (by decide),
   rfl,
   c6_flat_rec_refinement.2.2 "7" (.vInt 0 0) (.vInt 0 7) rfl⟩


end Bind
